import Mathlib

/-!
Shallow embedding of the `config_savvy` library (`src/config_savvy/__init__.py`).

The library is a layered configuration-resolution engine.  Python objects are
modelled as follows.

* Raw configuration values are dynamically typed in Python; here they are the
  sum type `PyVal` (integers, strings, `None`).
* `Option` instances (named configuration slots) become the structure `Opt`.
  The Python sentinel `UnsetParameter` used for absent `default`/`value`
  arguments becomes `Option PyVal` with `none` for "unset".
* `Config` objects form a shared mutable graph: a `Config` holds references to
  upstream resolvers (other `Config`s or bare value-source readers), and
  several merged views may alias one underlying `Config`.  We therefore model
  the object graph with an explicit heap: a `Heap` is a list of `ConfigData`
  records, and a reference to a `Config` is an index into that heap.  A
  reference from an `Opt` back to its binding `Config` (`Option._resolver`)
  is likewise a heap index.
* The stateless value sources `EnvConfigReader` and `IniConfigReader` carry no
  mutable state, so they are stored inline in the `readers` list as the
  `Reader.env` / `Reader.ini` cases; `Reader.cfg i` is an upstream `Config`.
* The process environment (`os.environ`) is passed explicitly as an
  association list `EnvMap`.
* Python exceptions of the `ConfigError` hierarchy become the inductive `Err`,
  and raising becomes returning `Except.error`.
* Python `get_option` recursion over the upstream graph can only terminate on
  the acyclic graphs the library builds; recursion depth is made explicit with
  a fuel parameter (a cycle in Python would hit the interpreter recursion
  limit, modelled by the fuel-exhaustion error).
-/

/-- Dynamically typed raw configuration values. -/
inductive PyVal where
  | vInt (n : Int)
  | vStr (s : String)
  | vNone
  deriving DecidableEq, Repr

/-- Environment variables: the `os.environ` mapping, as an association list. -/
abbrev EnvMap : Type := List (String × String)

/-- The `ConfigError` exception hierarchy of the source.  Each class carries a
`message` (possibly `None`) and a list of `attempts` diagnostics; the
subclasses `UndefinedOptionError`, `UnassignedOptionError` and
`UnassignedParameterError` are separate cases so that `except` clauses that
catch a single subclass can be modelled by matching one constructor. -/
inductive Err where
  | configError (message : Option String) (attempts : List String)
  | undefinedOptionError (message : Option String) (attempts : List String)
  | unassignedOptionError (message : Option String) (attempts : List String)
  | unassignedParameterError (message : Option String) (attempts : List String)
  deriving DecidableEq, Repr

/-- The `Option` class: a named, sectioned configuration slot.  Field `dflt`
is `_default`, `value` is `_value` (with `none` for `UnsetParameter`),
`processor` is `_processor` (the constructor substitutes the identity for
`None`), `sec` is `section`, and `resolver` is the `_resolver` back-reference
to the binding `Config`, as a heap index. -/
structure Opt where
  name : String
  dflt : Option PyVal
  value : Option PyVal
  processor : PyVal → PyVal
  sec : Option String
  description : Option String
  resolver : Option Nat

/-- Parsed INI file contents held by an `IniConfigReader`: the `DEFAULT`
section's entries plus the named sections, each an association list of
(lower-cased) keys to values.  `configparser` itself is external to the
library and is modelled as a plain two-level lookup with `DEFAULT`-section
fallback. -/
structure IniData where
  defaults : List (String × String)
  sections : List (String × List (String × String))
  deriving DecidableEq, Repr

/-- An entry of a `Config`'s `readers` list: either an upstream `Config`
(by heap index) or one of the two stateless `BaseConfigReader` value
sources. -/
inductive Reader where
  | cfg (i : Nat)
  | env (pfx : String)
  | ini (secs : List String) (data : IniData)
  deriving DecidableEq, Repr

/-- The mutable state of one `Config` object: its ambient `section`, its
directly owned `_options` and its `readers` chain. -/
structure ConfigData where
  sec : Option String
  options : List Opt
  readers : List Reader

/-- The object heap: all allocated `Config` objects; a `Config` reference is
an index into this list. -/
abbrev Heap : Type := List ConfigData

/-- Membership of an option key in an option set.  Python `Option.__eq__`
compares only `(name, section)`, so `option in self._options` is a search for
a matching `(name, section)` pair. -/
def containsKey (os : List Opt) (nm : String) (sec : Option String) : Bool :=
  os.any (fun o => o.name == nm && o.sec == sec)

/-- Adding an option to the Python `set` `_options`: `set.add` is a no-op when
an element equal by `(name, section)` is already present. -/
def addOpt (os : List Opt) (o : Opt) : List Opt :=
  if containsKey os o.name o.sec then os else os ++ [o]

/-- Union `options |= new_options` of two option sets, keeping the
left-hand element on a `(name, section)` collision, as Python set union
does. -/
def unionOpts (os js : List Opt) : List Opt :=
  js.foldl addOpt os

/-- Uniqueness of `(name, section)` keys in an option list — the invariant
maintained by the Python `set` `_options`. -/
def keysUniqueB : List Opt → Bool
  | [] => true
  | o :: rest => !containsKey rest o.name o.sec && keysUniqueB rest

/-- The `Option.value` property: the processed explicit value, or
`UnassignedParameterError` when `_value` is the `UnsetParameter` sentinel. -/
def optValue (o : Opt) : Except Err PyVal :=
  match o.value with
  | some v => .ok (o.processor v)
  | none => .error (.unassignedParameterError none [])

/-- The `Option.default` property: the processed default value, or
`UnassignedParameterError` when `_default` is unset. -/
def optDefault (o : Opt) : Except Err PyVal :=
  match o.dflt with
  | some v => .ok (o.processor v)
  | none => .error (.unassignedParameterError none [])

/-- The `Option.bind` method: set the `_resolver` back-reference. -/
def bindOpt (o : Opt) (i : Nat) : Opt :=
  { o with resolver := some i }

/-- Python `str.upper()` (an external library call), modelled character-wise
over the string's character list. -/
def strUpper (s : String) : String :=
  ⟨s.data.map Char.toUpper⟩

/-- Python `str.lower()` (applied to INI keys by `configparser.optionxform`),
modelled character-wise over the string's character list. -/
def strLower (s : String) : String :=
  ⟨s.data.map Char.toLower⟩

/-- The uppercased environment variable name `(prefix + name).upper()` used by
`EnvConfigReader._env_name`. -/
def envName (pfx nm : String) : String :=
  strUpper (pfx ++ nm)

/-- Lookup in the process environment, `os.environ[key]` as an `Option`. -/
def envLookup (envr : EnvMap) (key : String) : Option String :=
  (envr.find? (fun p => p.1 == key)).map (fun p => p.2)

/-- The diagnostic recorded by `EnvConfigReader.resolve` on a missed key. -/
def envAttempt (pfx nm : String) : String :=
  "EnvConfigReader | searching for " ++ nm ++ " | could not find " ++ envName pfx nm

/-- The `EnvConfigReader.resolve` method: uppercase `prefix + name`, look it up
in the environment, and raise `UnassignedOptionError` with one attempt entry
on a miss. -/
def envResolve (envr : EnvMap) (pfx : String) (o : Opt) : Except Err PyVal :=
  match envLookup envr (envName pfx o.name) with
  | some v => .ok (.vStr v)
  | none => .error (.unassignedOptionError none [envAttempt pfx o.name])

/-- A single `self._config[section][option.name]` access of the parsed INI
file: missing section is a `KeyError`; a key missing from the section falls
back to the `DEFAULT` section (standard `configparser` behaviour, with keys
lower-cased by `optionxform`). -/
def iniGet (d : IniData) (sec nm : String) : Option String :=
  match d.sections.find? (fun p => p.1 == sec) with
  | none => none
  | some p =>
    match p.2.find? (fun e => e.1 == strLower nm) with
    | some e => some e.2
    | none => (d.defaults.find? (fun e => e.1 == strLower nm)).map (fun e => e.2)

/-- The diagnostic recorded by `IniConfigReader.resolve` per missed section. -/
def iniAttempt (nm sec : String) : String :=
  "IniConfigReader | searching for " ++ nm ++ " | not found in section " ++ sec

/-- The section loop of `IniConfigReader.resolve`: try each configured section
in order, return the first hit, and otherwise raise `UnassignedOptionError`
with one attempt entry per missed section.  `acc` is the `attempts` list
accumulated so far. -/
def iniResolveAux (d : IniData) (nm : String) : List String → List String → Except Err PyVal
  | [], acc => .error (.unassignedOptionError none acc)
  | s :: rest, acc =>
    match iniGet d s nm with
    | some v => .ok (.vStr v)
    | none => iniResolveAux d nm rest (acc ++ [iniAttempt nm s])

/-- The `IniConfigReader.resolve` method. -/
def iniResolve (secs : List String) (d : IniData) (nm : String) : Except Err PyVal :=
  iniResolveAux d nm secs []

/-- The `isinstance(rd, BaseConfigReader)` test used by `Config.resolve` to
keep only value-source readers. -/
def readerIsSource : Reader → Bool
  | .cfg _ => false
  | .env _ => true
  | .ini _ _ => true

/-- Dispatch of `reader.resolve(option)` over the two value-source reader
classes.  (`Config.resolve` filters out `Reader.cfg` before calling, so that
case is unreachable.) -/
def sourceResolve (envr : EnvMap) (r : Reader) (o : Opt) : Except Err PyVal :=
  match r with
  | .env pfx => envResolve envr pfx o
  | .ini secs d => iniResolve secs d o.name
  | .cfg _ => .error (.configError none [])

/-- The reader loop of `Config.resolve`: try each value source in declared
order, return the first success; on `UnassignedOptionError` accumulate its
attempts and continue; when the loop ends raise `UnassignedOptionError` with
the aggregated attempts. -/
def resolveLoop (envr : EnvMap) (o : Opt) : List Reader → List String → Except Err PyVal
  | [], acc => .error (.unassignedOptionError (some (o.name ++ " - could not be resolved")) acc)
  | r :: rest, acc =>
    match sourceResolve envr r o with
    | .ok v => .ok v
    | .error (.unassignedOptionError _ atts) => resolveLoop envr o rest (acc ++ atts)
    | .error e => .error e

/-- The `Config.resolve` method: local-only resolution of a directly owned
option.  A caller error (`ConfigError`) if the option is not owned; otherwise
the value-source loop over `self.readers`. -/
def configResolve (h : Heap) (envr : EnvMap) (i : Nat) (o : Opt) : Except Err PyVal :=
  match h[i]? with
  | none => .error (.configError (some "dangling config reference") [])
  | some c =>
    if containsKey c.options o.name o.sec then
      resolveLoop envr o (c.readers.filter readerIsSource) []
    else
      .error (.configError (some ("Reader does not have option " ++ o.name)) [])

/-- The `Option.resolve` method (the spec's `read()`): the explicit value if
set; else the bound resolver's `resolve`, returned as-is; on its
`UnassignedOptionError` the default value; failing that, re-raise the error
with a final "no default" entry appended to its attempts.  An unbound option
(`_resolver` is `None`) raises a bare `UnassignedOptionError` before the
default is tried. -/
def optionResolve (h : Heap) (envr : EnvMap) (o : Opt) : Except Err PyVal :=
  match optValue o with
  | .ok v => .ok v
  | .error _ =>
    match (match o.resolver with
           | some i => configResolve h envr i o
           | none => .error (.unassignedOptionError none [])) with
    | .ok v => .ok v
    | .error (.unassignedOptionError m atts) =>
      match optDefault o with
      | .ok v => .ok v
      | .error _ =>
        .error (.unassignedOptionError m (atts ++ ["No default value for option " ++ o.name]))
    | .error e => .error e

/-- The `Config.get_option` method.  First search the directly owned options
for an exact `(name, section)` match and return it rebound to this config;
else walk `reversed(self.readers)`: a bare value-source reader's `get_option`
raises `UndefinedOptionError`, which the loop catches and skips; an upstream
`Config` is asked recursively, its `UndefinedOptionError` is caught and
skipped, and any other error propagates.  When the loop is exhausted, raise
`UnassignedOptionError('Undefined option ...')` (the source raises this
subclass, not `UndefinedOptionError`).  The fuel bounds recursion depth. -/
def getOption : Nat → Heap → Nat → String → Option String → Except Err Opt
  | 0, _, _, _, _ => .error (.configError (some "recursion limit exceeded") [])
  | fuel + 1, h, i, nm, sec =>
    match h[i]? with
    | none => .error (.configError (some "dangling config reference") [])
    | some c =>
      match c.options.find? (fun o => o.name == nm && o.sec == sec) with
      | some o => .ok (bindOpt o i)
      | none =>
        c.readers.reverse.foldr
          (fun r cont =>
            match r with
            | .env _ => cont
            | .ini _ _ => cont
            | .cfg j =>
              match getOption fuel h j nm sec with
              | .ok o => .ok o
              | .error (.undefinedOptionError _ _) => cont
              | .error e => .error e)
          (.error (.unassignedOptionError (some ("Undefined option " ++ nm)) []))

/-- The `Config.__getitem__` string case: `self.get_option(item, self.section)`
followed by `item.resolve()`.  The `except ConfigError` clause only logs and
re-raises, so errors pass through unchanged. -/
def getItemStr (fuel : Nat) (h : Heap) (envr : EnvMap) (i : Nat) (nm : String) : Except Err PyVal :=
  match h[i]? with
  | none => .error (.configError (some "dangling config reference") [])
  | some c =>
    match getOption fuel h i nm c.sec with
    | .ok o => optionResolve h envr o
    | .error e => .error e

/-- Allocation of a `Config(options=..., readers=..., section=...)`: the new
object is appended to the heap and its index returned.  The constructor binds
each option to the new config and collects them into a set. -/
def mkConfig (h : Heap) (options : List Opt) (readers : List Reader)
    (sec : Option String) : Heap × Nat :=
  let i := h.length
  (h ++ [{ sec := sec,
           options := (options.map (fun o => bindOpt o i)).foldl addOpt [],
           readers := readers }], i)

/-- The `Config.__add__` merge: a fresh `Config` with no options of its own
and upstream chain `[self, other]`. -/
def configAdd (h : Heap) (i j : Nat) : Heap × Nat :=
  mkConfig h [] [.cfg i, .cfg j] none

/-- Normalisation `processor or (lambda x: x)` done by the `Option`
constructor. -/
def procOrId (p : Option (PyVal → PyVal)) : PyVal → PyVal :=
  p.getD (fun v => v)

/-- The `Config.add_option` method: when an explicit `section` argument is
given it overwrites the config's ambient `section`; the new option is built
with the (possibly updated) ambient section, bound to this config, and added
to the owned set. -/
def addOption (h : Heap) (i : Nat) (nm : String) (dflt value : Option PyVal)
    (proc : Option (PyVal → PyVal)) (sec : Option String)
    (descr : Option String) : Heap :=
  match h[i]? with
  | none => h
  | some c =>
    let c := if sec.isSome then { c with sec := sec } else c
    let o : Opt :=
      { name := nm, dflt := dflt, value := value, processor := procOrId proc,
        sec := c.sec, description := descr, resolver := some i }
    h.set i { c with options := addOpt c.options o }

/-- Replace config `i`'s option set by its union with `os`
(`options |= new_options`, which mutates `self._options` in place). -/
def heapUnionOptions (h : Heap) (i : Nat) (os : List Opt) : Heap :=
  match h[i]? with
  | none => h
  | some c => h.set i { c with options := unionOpts c.options os }

/-- The current `_options` of config `i`. -/
def heapOptions (h : Heap) (i : Nat) : List Opt :=
  ((h[i]?).map (fun c => c.options)).getD []

/-- The `BaseConfig.get_flat` method on a `Config`.  `options` starts as an
alias of `self._options`; for each reader in order, a bare value source
contributes `(set(), [reader])`, while an upstream `Config` is flattened
recursively (threading the heap, since the recursion mutates the upstream
configs' `_options` sets) and its result is unioned into `self._options` in
place.  Returns the final heap, the (aliased, hence final) option set, and
the collected value-source readers. -/
def getFlat : Nat → Heap → Nat → Heap × List Opt × List Reader
  | 0, h, _ => (h, [], [])
  | fuel + 1, h, i =>
    match h[i]? with
    | none => (h, [], [])
    | some c =>
      let res := c.readers.foldl
        (fun (acc : Heap × List Reader) r =>
          match r with
          | .env _ => (acc.1, acc.2 ++ [r])
          | .ini _ _ => (acc.1, acc.2 ++ [r])
          | .cfg j =>
            let rec' := getFlat fuel acc.1 j
            (heapUnionOptions rec'.1 i rec'.2.1, acc.2 ++ rec'.2.2))
        (h, [])
      (res.1, heapOptions res.1 i, res.2)

/-- The `Config.flatten` method: `options, readers = self.get_flat()` followed
by `self._options = options; self.readers = readers`. -/
def flatten (fuel : Nat) (h : Heap) (i : Nat) : Heap :=
  let res := getFlat fuel h i
  match res.1[i]? with
  | none => res.1
  | some c => res.1.set i { c with options := res.2.1, readers := res.2.2 }

/-- The two-level snapshot dictionary built by `Config.cache`:
section name (possibly `None`) to option name to resolved value. -/
abbrev CacheDict : Type := List (Option String × List (String × PyVal))

/-- Assignment `entries[name] = v` inside one section of the snapshot:
overwrite the entry in place when the key is present (dict keys are unique),
otherwise append it. -/
def sectionInsert : List (String × PyVal) → String → PyVal → List (String × PyVal)
  | [], nm, v => [(nm, v)]
  | e :: rest, nm, v =>
    if e.1 == nm then (nm, v) :: rest else e :: sectionInsert rest nm v

/-- Assignment `output[section][name] = v` on the `defaultdict(dict)` used by
`Config.cache`: update the section in place when present (dict keys are
unique), otherwise create it. -/
def dictInsert : CacheDict → Option String → String → PyVal → CacheDict
  | [], sec, nm, v => [(sec, [(nm, v)])]
  | p :: rest, sec, nm, v =>
    if p.1 == sec then (p.1, sectionInsert p.2 nm v) :: rest
    else p :: dictInsert rest sec nm v

/-- Lookup inside one section of the snapshot. -/
def sectionLookup : List (String × PyVal) → String → Option PyVal
  | [], _ => none
  | e :: rest, nm => if e.1 == nm then some e.2 else sectionLookup rest nm

/-- Two-level lookup `dict[section][name]` on the snapshot. -/
def dictLookup : CacheDict → Option String → String → Option PyVal
  | [], _, _ => none
  | p :: rest, sec, nm =>
    if p.1 == sec then sectionLookup p.2 nm else dictLookup rest sec nm

/-- The `ConfigCache` snapshot object (its `_index` dictionary). -/
structure ConfigCache where
  index : CacheDict

/-- One iteration of the `Config.cache` loop: resolve the option and store its
value under `output[option.section][option.name]`; a resolution error aborts
the whole snapshot. -/
def cacheStep (h : Heap) (envr : EnvMap) (acc : Except Err CacheDict) (o : Opt) :
    Except Err CacheDict :=
  match acc with
  | .error e => .error e
  | .ok d =>
    match optionResolve h envr o with
    | .ok v => .ok (dictInsert d o.sec o.name v)
    | .error e => .error e

/-- The `Config.cache` method: iterate the `options` property (a copy of the
directly owned `_options` set) and build the two-level snapshot. -/
def configCache (h : Heap) (envr : EnvMap) (i : Nat) : Except Err ConfigCache :=
  match h[i]? with
  | none => .error (.configError (some "dangling config reference") [])
  | some c =>
    (c.options.foldl (cacheStep h envr) (.ok [])).map ConfigCache.mk

/-- Projection of a resolution result to its error, for stating which
exception a call raises. -/
def errOfV : Except Err PyVal → Option Err
  | .error e => some e
  | .ok _ => none

/-- Projection of a resolution result to its value. -/
def valOf : Except Err PyVal → Option PyVal
  | .ok v => some v
  | .error _ => none

/-- Projection of a `get_option` result to its error. -/
def errOfO : Except Err Opt → Option Err
  | .error e => some e
  | .ok _ => none

/-- Projection of a `get_option` result to the `(name, section, value)` of the
returned option. -/
def foundKey : Except Err Opt → Option (String × Option String × Option PyVal)
  | .ok o => some (o.name, o.sec, o.value)
  | .error _ => none

/-- Projection of a `cache()` result to its dictionary. -/
def cacheOf : Except Err ConfigCache → Option CacheDict
  | .ok c => some c.index
  | .error _ => none

/-- Truth of success of a source resolution. -/
def isOkV : Except Err PyVal → Bool
  | .ok _ => true
  | .error _ => false

/-- Attempt-list size contributed by one failing reader: one entry for an
environment source, one per configured section for an INI source, none for an
upstream config (filtered out by `Config.resolve`). -/
def readerWeight : Reader → Nat
  | .cfg _ => 0
  | .env _ => 1
  | .ini secs _ => secs.length

/-- The identity processor substituted by the `Option` constructor when no
`processor` is given. -/
def procId : PyVal → PyVal := fun v => v

/-- A non-identity processor (marks strings with a trailing `!`), used to
observe whether a resolution path applies the transform. -/
def procMark : PyVal → PyVal
  | .vStr s => .vStr (s ++ "!")
  | v => v

/-- Concrete option for the source-beats-default scenario: no explicit value,
a default of `7`, a non-identity processor, bound to config `0`. -/
def exC1opt : Opt :=
  { name := "opt", dflt := some (.vInt 7), value := none, processor := procMark,
    sec := none, description := none, resolver := some 0 }

/-- Concrete heap for the source-beats-default scenario: one config owning
`exC1opt` with a single prefix-less environment source. -/
def exC1heap : Heap :=
  [{ sec := none, options := [exC1opt], readers := [.env ""] }]

/-- Concrete environment for the source-beats-default scenario. -/
def exC1env : EnvMap := [("OPT", "5")]

/-- Option `x` with default `1` bound to config `0`, identity processor. -/
def exOptX : Opt :=
  { name := "x", dflt := some (.vInt 1), value := none, processor := procId,
    sec := none, description := none, resolver := some 0 }

/-- Heap for the merge-precedence scenario: config `0` owns `x` (default `1`),
config `1` is an empty config, config `2` is their merge `a + b` built by
`Config.__add__`. -/
def exC2heap : Heap :=
  (configAdd [{ sec := none, options := [exOptX], readers := [] },
              { sec := none, options := [], readers := [] }] 0 1).1

/-- Heap with a single config owning no options and one environment source. -/
def exC3heap : Heap :=
  [{ sec := none, options := [], readers := [.env ""] }]

/-- Two empty configs allocated with `mkConfig`. -/
def exC4base : Heap :=
  (mkConfig (mkConfig [] [] [] none).1 [] [] none).1

/-- Merge `m = a + b` of the two empty configs (`m` has heap index `2`). -/
def exC4merged : Heap × Nat := configAdd exC4base 0 1

/-- The heap after mutating `a` post-merge with
`a.add_option('x', default=1)`. -/
def exC4heap : Heap :=
  addOption exC4merged.1 0 "x" (some (.vInt 1)) none none none none

/-- Heap for the cache scenario: config `0` owns `x` (default `1`), config `1`
owns nothing and has config `0` upstream. -/
def exC5heap : Heap :=
  [{ sec := none, options := [exOptX], readers := [] },
   { sec := none, options := [], readers := [.cfg 0] }]

/-- Option `x` with neither value nor default, bound to config `0`. -/
def exC6opt : Opt :=
  { name := "x", dflt := none, value := none, processor := procId,
    sec := none, description := none, resolver := some 0 }

/-- Heap with one config owning `exC6opt` and no readers at all. -/
def exC6heap : Heap :=
  [{ sec := none, options := [exC6opt], readers := [] }]

/-- Option `opt` with neither value nor default, bound to config `0`. -/
def exC8opt : Opt :=
  { name := "opt", dflt := none, value := none, processor := procId,
    sec := none, description := none, resolver := some 0 }

/-- Heap with one config owning `exC8opt` and a single environment source. -/
def exC8heap : Heap :=
  [{ sec := none, options := [exC8opt], readers := [.env ""] }]

/-- Option with an explicit value and a non-identity processor, unbound. -/
def exC7opt : Opt :=
  { name := "b", dflt := none, value := some (.vStr "2"), processor := procMark,
    sec := none, description := none, resolver := none }

/-- C7: for every Option whose explicit value was set at construction,
`read()` (the source's `Option.resolve`) returns `transform(explicit_value)`,
regardless of attached sources or a default value: the explicit value wins
over every other resolution tier. -/
theorem c7_explicit_value_wins (h : Heap) (envr : EnvMap) (o : Opt) (v : PyVal)
    (hv : o.value = some v) :
    optionResolve h envr o = .ok (o.processor v) := by
  simp [optionResolve, optValue, hv]

/-- Witness for C7 at a concrete option with explicit value `"2"` and a
non-identity processor, with empty heap and environment. -/
theorem c7_explicit_value_wins_witness :
    exC7opt.value = some (.vStr "2") ∧
    optionResolve [] [] exC7opt = .ok (exC7opt.processor (.vStr "2")) :=
  ⟨rfl, c7_explicit_value_wins [] [] exC7opt (.vStr "2") rfl⟩

/-- C3, counterexample to the claimed error type: a config owning no matching
option, whose upstream chain yields no match either, fails with
`UnassignedOptionError` (message `Undefined option x`), not with
`UndefinedOptionError` as the claim and the repository's own tests require. -/
theorem c3_get_option_raises_unassigned :
    errOfO (getOption 5 exC3heap 0 "x" none) =
      some (.unassignedOptionError (some "Undefined option x") []) := by
  rfl

/-- C2, failing input for the merge-precedence contract: with `a` owning
`(x, None)` (default `1`) and `b` an empty config, the merged view `a + b`
cannot resolve `x` at all — the miss inside `b` raises
`UnassignedOptionError`, which the reader loop (catching only
`UndefinedOptionError`) does not catch, so `a` is never consulted — while `a`
queried directly still resolves `x` to `1`. -/
theorem c2_merge_lookup_aborts_instead_of_falling_back :
    errOfO (getOption 5 exC2heap 2 "x" none) =
      some (.unassignedOptionError (some "Undefined option x") []) ∧
    valOf (getItemStr 5 exC2heap [] 0 "x") = some (.vInt 1) := by
  exact ⟨rfl, rfl⟩

/-- C4, failing input for the live-view contract: after merging two empty
configs into `m = a + b` and then adding option `x` (default `1`) to `a`, `a`
itself resolves `x` to `1`, but the lookup through `m` raises
`UnassignedOptionError` instead of seeing the unshadowed mutation. -/
theorem c4_mutation_not_visible_through_merge :
    valOf (getItemStr 5 exC4heap [] 0 "x") = some (.vInt 1) ∧
    errOfO (getOption 5 exC4heap 2 "x" none) =
      some (.unassignedOptionError (some "Undefined option x") []) := by
  exact ⟨rfl, rfl⟩

/-- C1, counterexample to the transform part: with no explicit value, default
`7`, processor `procMark` and an environment source supplying `"5"`, `read()`
returns the raw string `"5"`, which differs from
`transform(source_value) = "5!"` (the processor is not applied to
resolver-supplied values; the default is indeed not used). -/
theorem c1_counterexample :
    valOf (optionResolve exC1heap exC1env exC1opt) = some (.vStr "5") ∧
    some (exC1opt.processor (.vStr "5")) ≠ valOf (optionResolve exC1heap exC1env exC1opt) := by
  exact ⟨rfl, by decide⟩

/-- C5, counterexample to the transitive part: config `1` owns no options and
has config `0` (which owns `x`) upstream, yet `cache()` on config `1`
produces an empty snapshot that does not contain `x`. -/
theorem c5_counterexample :
    cacheOf (configCache exC5heap [] 1) = some [] ∧
    dictLookup ((cacheOf (configCache exC5heap [] 1)).getD []) none "x" = none := by
  exact ⟨rfl, rfl⟩

/-- C6, counterexample to the claimed error type: resolving a directly owned
option on a config with no value sources at all fails with
`UnassignedOptionError` (with empty attempts) — the code has no distinct
`NoDirectResolvers` error. -/
theorem c6_counterexample :
    errOfV (configResolve exC6heap [] 0 exC6opt) =
      some (.unassignedOptionError (some "x - could not be resolved") []) := by
  rfl

/-- C8, counterexample to "exactly one entry per source tried": one
environment source is tried and misses, yet the raised
`UnassignedOptionError` carries two attempt entries — the source's entry plus
the final "No default value" entry. -/
theorem c8_counterexample :
    errOfV (optionResolve exC8heap [] exC8opt) =
      some (.unassignedOptionError (some "opt - could not be resolved")
        [envAttempt "" "opt", "No default value for option opt"]) ∧
    [envAttempt "" "opt", "No default value for option opt"].length ≠ 1 := by
  exact ⟨rfl, by decide⟩

/-- C1 (amended): for every Option with no explicit value but with a default,
bound to a Config with an Environment Source that defines the matching
uppercased key, `read()` returns the raw source-supplied value `source_value`
(the processor is not applied on the resolver path) and not the default
value. -/
theorem c1_env_source_beats_default_raw
    (h : Heap) (envr : EnvMap) (i : Nat) (c : ConfigData) (o : Opt)
    (pfx raw : String) (d : PyVal)
    (hval : o.value = none) (hdflt : o.dflt = some d) (hres : o.resolver = some i)
    (hheap : h[i]? = some c) (hmem : containsKey c.options o.name o.sec = true)
    (hreaders : c.readers = [.env pfx])
    (henv : envLookup envr (envName pfx o.name) = some raw) :
    optionResolve h envr o = .ok (.vStr raw) := by
  simp [optionResolve, optValue, hval, hres, configResolve, hheap, hmem, hreaders,
        List.filter, readerIsSource, resolveLoop, sourceResolve, envResolve, henv]

/-- Witness for the amended C1 at the concrete scenario of
`c1_counterexample`: the environment supplies `"5"`, the default is `7`, and
`read()` returns the raw `"5"`. -/
theorem c1_env_source_beats_default_raw_witness :
    exC1opt.value = none ∧ exC1opt.dflt = some (.vInt 7) ∧ exC1opt.resolver = some 0 ∧
    exC1heap[0]? = some { sec := none, options := [exC1opt], readers := [.env ""] } ∧
    containsKey [exC1opt] "opt" none = true ∧
    envLookup exC1env (envName "" "opt") = some "5" ∧
    optionResolve exC1heap exC1env exC1opt = .ok (.vStr "5") :=
  ⟨rfl, rfl, rfl, rfl, by decide, by decide,
   c1_env_source_beats_default_raw exC1heap exC1env 0 _ exC1opt "" "5" (.vInt 7)
     rfl rfl rfl rfl (by decide) rfl (by decide)⟩

/-- C6 (amended): for every Config whose own reader list contains no Value
Source at all, `resolve(option)` on a directly owned Option fails with
`UnassignedOptionError` carrying an empty attempts list — the code defines no
distinct `NoDirectResolvers` error. -/
theorem c6_no_sources_unassigned_empty_attempts
    (h : Heap) (envr : EnvMap) (i : Nat) (c : ConfigData) (o : Opt)
    (hheap : h[i]? = some c) (hmem : containsKey c.options o.name o.sec = true)
    (hnosrc : c.readers.filter readerIsSource = []) :
    configResolve h envr i o =
      .error (.unassignedOptionError (some (o.name ++ " - could not be resolved")) []) := by
  simp [configResolve, hheap, hmem, hnosrc, resolveLoop]

/-- Witness for the amended C6 at the concrete scenario of
`c6_counterexample`. -/
theorem c6_no_sources_unassigned_empty_attempts_witness :
    exC6heap[0]? = some { sec := none, options := [exC6opt], readers := [] } ∧
    containsKey [exC6opt] "x" none = true ∧
    ([] : List Reader).filter readerIsSource = [] ∧
    configResolve exC6heap [] 0 exC6opt =
      .error (.unassignedOptionError (some ("x" ++ " - could not be resolved")) []) :=
  ⟨rfl, by decide, rfl,
   c6_no_sources_unassigned_empty_attempts exC6heap [] 0 _ exC6opt rfl (by decide) rfl⟩

/-- A failing environment lookup raises `UnassignedOptionError` with exactly
one attempt entry. -/
theorem envResolve_fail (envr : EnvMap) (pfx : String) (o : Opt)
    (hfail : isOkV (envResolve envr pfx o) = false) :
    envResolve envr pfx o = .error (.unassignedOptionError none [envAttempt pfx o.name]) := by
  cases h : envLookup envr (envName pfx o.name)
  · simp [envResolve, h]
  · simp [envResolve, h, isOkV] at hfail

/-- A failing INI section loop raises `UnassignedOptionError` whose attempt
list extends the accumulator by one entry per configured section. -/
theorem iniResolveAux_fail (d : IniData) (nm : String) :
    ∀ (secs acc : List String), isOkV (iniResolveAux d nm secs acc) = false →
      ∃ atts, iniResolveAux d nm secs acc = .error (.unassignedOptionError none atts) ∧
        atts.length = acc.length + secs.length := by
  intro secs
  induction secs with
  | nil =>
    intro acc _
    exact ⟨acc, rfl, by simp⟩
  | cons s rest ih =>
    intro acc hfail
    cases h : iniGet d s nm with
    | some v => simp [iniResolveAux, h, isOkV] at hfail
    | none =>
      obtain ⟨atts, heq, hlen⟩ :=
        ih (acc ++ [iniAttempt nm s]) (by simpa [iniResolveAux, h] using hfail)
      refine ⟨atts, by simpa [iniResolveAux, h] using heq, ?_⟩
      simp at hlen ⊢
      omega

/-- A failing value source raises `UnassignedOptionError` with `readerWeight`
many attempt entries: one for an environment source, one per configured
section for an INI source. -/
theorem sourceResolve_fail (envr : EnvMap) (r : Reader) (o : Opt)
    (hsrc : readerIsSource r = true)
    (hfail : isOkV (sourceResolve envr r o) = false) :
    ∃ m atts, sourceResolve envr r o = .error (.unassignedOptionError m atts) ∧
      atts.length = readerWeight r := by
  cases r with
  | cfg j => simp [readerIsSource] at hsrc
  | env pfx =>
    refine ⟨none, [envAttempt pfx o.name], ?_, rfl⟩
    simpa [sourceResolve] using envResolve_fail envr pfx o (by simpa [sourceResolve] using hfail)
  | ini secs d =>
    obtain ⟨atts, heq, hlen⟩ :=
      iniResolveAux_fail d o.name secs [] (by simpa [sourceResolve, iniResolve] using hfail)
    exact ⟨none, atts, by simpa [sourceResolve, iniResolve] using heq, by simpa using hlen⟩

/-- When every value source in the list fails, the reader loop of
`Config.resolve` raises `UnassignedOptionError` whose attempts extend the
accumulator by the sum of the sources' weights. -/
theorem resolveLoop_fail (envr : EnvMap) (o : Opt) :
    ∀ (rs : List Reader) (acc : List String),
      (∀ r ∈ rs, readerIsSource r = true) →
      (∀ r ∈ rs, isOkV (sourceResolve envr r o) = false) →
      ∃ atts, resolveLoop envr o rs acc =
          .error (.unassignedOptionError (some (o.name ++ " - could not be resolved")) atts) ∧
        atts.length = acc.length + (rs.map readerWeight).sum := by
  intro rs
  induction rs with
  | nil =>
    intro acc _ _
    exact ⟨acc, rfl, by simp⟩
  | cons r rest ih =>
    intro acc hsrc hfail
    obtain ⟨m, atts, heq, hlen⟩ :=
      sourceResolve_fail envr r o (hsrc r (by simp)) (hfail r (by simp))
    obtain ⟨atts', heq', hlen'⟩ :=
      ih (acc ++ atts) (fun q hq => hsrc q (by simp [hq])) (fun q hq => hfail q (by simp [hq]))
    refine ⟨atts', ?_, ?_⟩
    · simpa [resolveLoop, heq] using heq'
    · simp [hlen'] at *
      omega

/-- Filtering out upstream configs does not change the total attempt weight,
since an upstream config contributes no source attempts. -/
theorem filter_weight_sum (rs : List Reader) :
    (((rs.filter readerIsSource).map readerWeight)).sum = (rs.map readerWeight).sum := by
  induction rs with
  | nil => rfl
  | cons r rest ih =>
    cases r <;> simp [List.filter, readerIsSource, readerWeight, ih]

/-- C8 (amended): for every Option with no explicit value, no default, bound
to a Config on which every attached value source fails to resolve it,
`read()` raises `UnassignedOptionError` whose attempt log has one entry per
environment source tried plus one entry per configured section of each INI
source tried, plus one final entry recording the missing default — the
weights summed over the reader list, plus one. -/
theorem c8_attempt_log_entries
    (h : Heap) (envr : EnvMap) (i : Nat) (c : ConfigData) (o : Opt)
    (hval : o.value = none) (hdflt : o.dflt = none) (hres : o.resolver = some i)
    (hheap : h[i]? = some c) (hmem : containsKey c.options o.name o.sec = true)
    (hfail : ∀ r ∈ c.readers, readerIsSource r = true →
      isOkV (sourceResolve envr r o) = false) :
    ∃ atts, optionResolve h envr o =
        .error (.unassignedOptionError (some (o.name ++ " - could not be resolved")) atts) ∧
      atts.length = (c.readers.map readerWeight).sum + 1 := by
  obtain ⟨atts, hloop, hlen⟩ :=
    resolveLoop_fail envr o (c.readers.filter readerIsSource) []
      (fun r hr => (List.mem_filter.mp hr).2)
      (fun r hr => hfail r (List.mem_filter.mp hr).1 (List.mem_filter.mp hr).2)
  refine ⟨atts ++ ["No default value for option " ++ o.name], ?_, ?_⟩
  · simp [optionResolve, optValue, hval, hres, configResolve, hheap, hmem, hloop,
          optDefault, hdflt]
  · simp [hlen, filter_weight_sum]

/-- Witness for the amended C8 at the concrete scenario of
`c8_counterexample`: one environment source, so the attempt log has
`1 + 1 = 2` entries. -/
theorem c8_attempt_log_entries_witness :
    exC8opt.value = none ∧ exC8opt.dflt = none ∧ exC8opt.resolver = some 0 ∧
    exC8heap[0]? = some { sec := none, options := [exC8opt], readers := [.env ""] } ∧
    containsKey [exC8opt] "opt" none = true ∧
    (∀ r ∈ [Reader.env ""], readerIsSource r = true →
      isOkV (sourceResolve [] r exC8opt) = false) ∧
    (∃ atts, optionResolve exC8heap [] exC8opt =
        .error (.unassignedOptionError (some ("opt" ++ " - could not be resolved")) atts) ∧
      atts.length = ([Reader.env ""].map readerWeight).sum + 1) :=
  ⟨rfl, rfl, rfl, rfl, by decide, by decide,
   c8_attempt_log_entries exC8heap [] 0 _ exC8opt rfl rfl rfl rfl (by decide) (by decide)⟩

/-- Looking up the key just inserted into a snapshot section returns the
inserted value. -/
theorem sectionLookup_insert_self (es : List (String × PyVal)) (nm : String) (v : PyVal) :
    sectionLookup (sectionInsert es nm v) nm = some v := by
  induction es with
  | nil => simp [sectionInsert, sectionLookup]
  | cons e rest ih =>
    by_cases h : e.1 = nm
    · simp [sectionInsert, h, sectionLookup]
    · simp [sectionInsert, h, sectionLookup, ih]

/-- Inserting under one key does not change another key's lookup inside a
snapshot section. -/
theorem sectionLookup_insert_other (es : List (String × PyVal)) (nm nm' : String) (v : PyVal)
    (hne : nm' ≠ nm) :
    sectionLookup (sectionInsert es nm v) nm' = sectionLookup es nm' := by
  have hne' : ¬(nm = nm') := fun hx => hne hx.symm
  induction es with
  | nil => simp [sectionInsert, sectionLookup, hne']
  | cons e rest ih =>
    by_cases h : e.1 = nm
    · simp [sectionInsert, h, sectionLookup, hne']
    · by_cases h2 : e.1 = nm'
      · simp [sectionInsert, h, sectionLookup, h2, hne]
      · simp [sectionInsert, h, sectionLookup, h2, ih]

/-- Looking up the (section, name) pair just inserted into a snapshot returns
the inserted value. -/
theorem dictLookup_insert_self (d : CacheDict) (sec : Option String) (nm : String) (v : PyVal) :
    dictLookup (dictInsert d sec nm v) sec nm = some v := by
  induction d with
  | nil => simp [dictInsert, dictLookup, sectionLookup]
  | cons p rest ih =>
    by_cases h : p.1 = sec
    · simp [dictInsert, h, dictLookup, sectionLookup_insert_self]
    · simp [dictInsert, h, dictLookup, ih]

/-- Inserting under one (section, name) pair does not change another pair's
lookup in a snapshot. -/
theorem dictLookup_insert_other (d : CacheDict) (sec sec' : Option String) (nm nm' : String)
    (v : PyVal) (hne : ¬(sec' = sec ∧ nm' = nm)) :
    dictLookup (dictInsert d sec nm v) sec' nm' = dictLookup d sec' nm' := by
  induction d with
  | nil =>
    by_cases hs : sec' = sec
    · have hn : nm' ≠ nm := fun hx => hne ⟨hs, hx⟩
      have hn' : ¬(nm = nm') := fun hx => hn hx.symm
      simp [dictInsert, dictLookup, hs, sectionLookup, hn']
    · have hs' : ¬(sec = sec') := fun hx => hs hx.symm
      simp [dictInsert, dictLookup, hs, hs']
  | cons p rest ih =>
    by_cases h : p.1 = sec
    · by_cases hs : p.1 = sec'
      · have hn : nm' ≠ nm := fun hkey => hne ⟨by rw [← hs, h], hkey⟩
        simp [dictInsert, dictLookup, h, hs, sectionLookup_insert_other _ _ _ _ hn]
      · have hs' : ¬(sec = sec') := fun hx => hs (h.trans hx)
        simp [dictInsert, dictLookup, h, hs, hs']
    · by_cases hs : p.1 = sec'
      · have hs' : ¬(sec' = sec) := fun hx => h (hs.trans hx)
        simp [dictInsert, dictLookup, h, hs, hs']
      · simp [dictInsert, dictLookup, h, hs, ih]

/-- When every option in the list resolves, the `Config.cache` fold
succeeds. -/
theorem cache_fold_ok (h : Heap) (envr : EnvMap) :
    ∀ (os : List Opt) (d : CacheDict),
      (∀ p ∈ os, isOkV (optionResolve h envr p) = true) →
      ∃ d', os.foldl (cacheStep h envr) (.ok d) = .ok d' := by
  intro os
  induction os with
  | nil => exact fun d _ => ⟨d, rfl⟩
  | cons q rest ih =>
    intro d hok
    have hq := hok q (by simp)
    cases hresq : optionResolve h envr q with
    | error e => rw [hresq] at hq; simp [isOkV] at hq
    | ok w =>
      obtain ⟨d', hf⟩ := ih (dictInsert d q.sec q.name w) (fun p hp => hok p (by simp [hp]))
      exact ⟨d', by simpa [cacheStep, hresq] using hf⟩

/-- Folding options none of which carries a given `(name, section)` key leaves
that key's snapshot entry unchanged. -/
theorem cache_fold_preserve (h : Heap) (envr : EnvMap) :
    ∀ (os : List Opt) (d : CacheDict) (sec : Option String) (nm : String),
      containsKey os nm sec = false →
      (∀ p ∈ os, isOkV (optionResolve h envr p) = true) →
      ∃ d', os.foldl (cacheStep h envr) (.ok d) = .ok d' ∧
        dictLookup d' sec nm = dictLookup d sec nm := by
  intro os
  induction os with
  | nil => exact fun d sec nm _ _ => ⟨d, rfl, rfl⟩
  | cons q rest ih =>
    intro d sec nm hkey hok
    have hq := hok q (by simp)
    cases hresq : optionResolve h envr q with
    | error e => rw [hresq] at hq; simp [isOkV] at hq
    | ok w =>
      have hkey2 := hkey
      simp [containsKey, List.any_cons] at hkey2
      obtain ⟨hhead, htail⟩ := hkey2
      have hkey' : containsKey rest nm sec = false := by
        simp [containsKey]
        exact htail
      have hne : ¬(sec = q.sec ∧ nm = q.name) := by
        rintro ⟨hs, hn⟩
        exact hhead hn.symm hs.symm
      obtain ⟨d', heq, hlook⟩ :=
        ih (dictInsert d q.sec q.name w) sec nm hkey' (fun p hp => hok p (by simp [hp]))
      refine ⟨d', by simpa [cacheStep, hresq] using heq, ?_⟩
      rw [hlook, dictLookup_insert_other _ _ _ _ _ _ hne]

/-- Every option of the folded list ends up in the snapshot under its own
`(section, name)` key with its own resolved value, provided the list's keys
are unique and every option resolves. -/
theorem cache_fold_lookup (h : Heap) (envr : EnvMap) :
    ∀ (os : List Opt) (d : CacheDict) (o : Opt) (v : PyVal),
      keysUniqueB os = true →
      o ∈ os → optionResolve h envr o = .ok v →
      (∀ p ∈ os, isOkV (optionResolve h envr p) = true) →
      ∃ d', os.foldl (cacheStep h envr) (.ok d) = .ok d' ∧
        dictLookup d' o.sec o.name = some v := by
  intro os
  induction os with
  | nil => intro d o v _ hmem; simp at hmem
  | cons q rest ih =>
    intro d o v huniq hmem hres hok
    have huniq2 := huniq
    simp [keysUniqueB] at huniq2
    obtain ⟨habsent, huniq'⟩ := huniq2
    rcases List.mem_cons.mp hmem with heq | hmem'
    · subst heq
      obtain ⟨d', hfold, hpres⟩ :=
        cache_fold_preserve h envr rest (dictInsert d o.sec o.name v) o.sec o.name
          habsent (fun p hp => hok p (by simp [hp]))
      refine ⟨d', by simpa [cacheStep, hres] using hfold, ?_⟩
      rw [hpres, dictLookup_insert_self]
    · have hq := hok q (by simp)
      cases hresq : optionResolve h envr q with
      | error e => rw [hresq] at hq; simp [isOkV] at hq
      | ok w =>
        obtain ⟨d', hfold, hlook⟩ :=
          ih (dictInsert d q.sec q.name w) o v huniq' hmem' hres
            (fun p hp => hok p (by simp [hp]))
        exact ⟨d', by simpa [cacheStep, hresq] using hfold, hlook⟩

/-- C5 (amended): for every Config, `cache()` resolves every *directly owned*
Option (and only those: options owned by upstream Configs are not included,
see the counterexample) into the two-level section-to-name-to-value snapshot;
the computation reads the heap without producing a new one, so the Config is
not mutated. -/
theorem c5_cache_direct_options (h : Heap) (envr : EnvMap) (i : Nat) (c : ConfigData)
    (hheap : h[i]? = some c) (huniq : keysUniqueB c.options = true)
    (hok : ∀ p ∈ c.options, isOkV (optionResolve h envr p) = true) :
    ∃ cc, configCache h envr i = .ok cc ∧
      ∀ o ∈ c.options, ∀ v, optionResolve h envr o = .ok v →
        dictLookup cc.index o.sec o.name = some v := by
  obtain ⟨d0, hf0⟩ := cache_fold_ok h envr c.options [] hok
  refine ⟨ConfigCache.mk d0, ?_, ?_⟩
  · simp [configCache, hheap, hf0, Except.map]
  · intro o hmem v hres
    obtain ⟨d1, hf1, hlook⟩ := cache_fold_lookup h envr c.options [] o v huniq hmem hres hok
    rw [hf0] at hf1
    injection hf1 with hd
    rw [hd]
    exact hlook

/-- Witness for the amended C5: config `0` of the cache scenario owns exactly
option `x` (default `1`), and its snapshot maps `(None, x)` to `1`. -/
theorem c5_cache_direct_options_witness :
    exC5heap[0]? = some { sec := none, options := [exOptX], readers := [] } ∧
    keysUniqueB [exOptX] = true ∧
    (∀ p ∈ [exOptX], isOkV (optionResolve exC5heap [] p) = true) ∧
    (∃ cc, configCache exC5heap [] 0 = .ok cc ∧
      ∀ o ∈ [exOptX], ∀ v, optionResolve exC5heap [] o = .ok v →
        dictLookup cc.index o.sec o.name = some v) :=
  ⟨rfl, by decide, by decide,
   c5_cache_direct_options exC5heap [] 0 _ rfl (by decide) (by decide)⟩

/-- Key absence makes the `(name, section)` search of `get_option` find
nothing. -/
theorem find?_eq_none_of_not_containsKey (os : List Opt) (nm : String) (sec : Option String)
    (hc : containsKey os nm sec = false) :
    os.find? (fun o => o.name == nm && o.sec == sec) = none := by
  induction os with
  | nil => rfl
  | cons o rest ih =>
    simp [containsKey, List.any_cons] at hc
    obtain ⟨h1, h2⟩ := hc
    have hp : (o.name == nm && o.sec == sec) = false := by
      by_cases hn : o.name = nm
      · simp [hn, h1 hn]
      · simp [hn]
    have hr : containsKey rest nm sec = false := by
      simp [containsKey]
      exact h2
    simp [List.find?_cons, hp, ih hr]

/-- Appending an element that does not satisfy the predicate preserves a
failed search. -/
theorem find?_append_none (p : Opt → Bool) (os : List Opt) (o : Opt)
    (hnone : os.find? p = none) (hp : p o = false) :
    (os ++ [o]).find? p = none := by
  induction os with
  | nil => simp [List.find?_cons, hp]
  | cons a rest ih =>
    rw [List.find?_eq_none] at hnone
    have ha : p a = false := by
      cases h : p a
      · rfl
      · exact absurd h (by simpa using hnone a (by simp))
    have hrest : rest.find? p = none := by
      rw [List.find?_eq_none]
      exact fun x hx => hnone x (by simp [hx])
    simpa [List.find?_cons, ha] using ih hrest

/-- Appending an element that satisfies the predicate to a list where the
search fails makes the search return exactly that element. -/
theorem find?_append_last (p : Opt → Bool) (os : List Opt) (o : Opt)
    (hnone : os.find? p = none) (hp : p o = true) :
    (os ++ [o]).find? p = some o := by
  induction os with
  | nil => simp [List.find?_cons, hp]
  | cons a rest ih =>
    rw [List.find?_eq_none] at hnone
    have ha : p a = false := by
      cases h : p a
      · rfl
      · exact absurd h (by simpa using hnone a (by simp))
    have hrest : rest.find? p = none := by
      rw [List.find?_eq_none]
      exact fun x hx => hnone x (by simp [hx])
    simpa [List.find?_cons, ha] using ih hrest

/-- Key membership distributes over appending a single option. -/
theorem containsKey_append_single (os : List Opt) (o : Opt) (nm : String) (sec : Option String) :
    containsKey (os ++ [o]) nm sec =
      (containsKey os nm sec || (o.name == nm && o.sec == sec)) := by
  simp [containsKey, List.any_append]

/-- Adding an option with a different key preserves absence of a key. -/
theorem containsKey_addOpt_false (os : List Opt) (o : Opt) (nm : String) (sec : Option String)
    (hos : containsKey os nm sec = false) (ho : (o.name == nm && o.sec == sec) = false) :
    containsKey (addOpt os o) nm sec = false := by
  rw [addOpt]
  cases hg : containsKey os o.name o.sec with
  | true => simpa using hos
  | false => simp [containsKey_append_single, hos, ho]

/-- C9: for every Config, calling `add_option(name, ..., section=s)` with an
explicit section permanently overwrites the Config's ambient section to `s`;
an Option added afterwards without an explicit section is keyed under `s`,
and a subsequent string-keyed item access finds and resolves it under `s`. -/
theorem c9_add_option_overwrites_ambient_section
    (h : Heap) (envr : EnvMap) (i : Nat) (c : ConfigData)
    (nm1 nm2 s : String) (v : PyVal)
    (hheap : h[i]? = some c)
    (hne : nm1 ≠ nm2)
    (habsent : containsKey c.options nm2 (some s) = false) :
    ((addOption h i nm1 none none none (some s) none)[i]?).map ConfigData.sec
        = some (some s) ∧
    ((addOption (addOption h i nm1 none none none (some s) none) i
        nm2 none (some v) none none none)[i]?).map ConfigData.sec = some (some s) ∧
    foundKey (getOption 1 (addOption (addOption h i nm1 none none none (some s) none) i
        nm2 none (some v) none none none) i nm2 (some s)) = some (nm2, some s, some v) ∧
    getItemStr 1 (addOption (addOption h i nm1 none none none (some s) none) i
        nm2 none (some v) none none none) envr i nm2 = .ok v := by
  have hheap' := hheap
  rw [List.getElem?_eq_some] at hheap'
  have hlt : i < h.length := hheap'.1
  set o1 : Opt := { name := nm1, dflt := none, value := none, processor := procOrId none,
                    sec := some s, description := none, resolver := some i } with ho1
  set o2 : Opt := { name := nm2, dflt := none, value := some v, processor := procOrId none,
                    sec := some s, description := none, resolver := some i } with ho2
  have e1 : addOption h i nm1 none none none (some s) none =
      h.set i { sec := some s, options := addOpt c.options o1, readers := c.readers } := by
    simp [addOption, hheap]
  have e1q : (addOption h i nm1 none none none (some s) none)[i]? =
      some { sec := some s, options := addOpt c.options o1, readers := c.readers } := by
    rw [e1]
    exact List.getElem?_set_self hlt
  have e2 : addOption (addOption h i nm1 none none none (some s) none) i
      nm2 none (some v) none none none =
      h.set i { sec := some s, options := addOpt (addOpt c.options o1) o2,
                readers := c.readers } := by
    rw [e1]
    simp [addOption, List.getElem?_set_self hlt, List.set_set]
  have e2q : (addOption (addOption h i nm1 none none none (some s) none) i
      nm2 none (some v) none none none)[i]? =
      some { sec := some s, options := addOpt (addOpt c.options o1) o2,
             readers := c.readers } := by
    rw [e2]
    exact List.getElem?_set_self hlt
  have hfind0 : c.options.find? (fun o => o.name == nm2 && o.sec == some s) = none :=
    find?_eq_none_of_not_containsKey _ _ _ habsent
  have po1 : (fun (o : Opt) => o.name == nm2 && o.sec == some s) o1 = false := by
    simp [ho1, hne]
  have hfind1 : (addOpt c.options o1).find?
      (fun o => o.name == nm2 && o.sec == some s) = none := by
    rw [addOpt]
    cases hg : containsKey c.options o1.name o1.sec with
    | true => simpa using hfind0
    | false => simpa using find?_append_none _ _ _ hfind0 po1
  have guard2 : containsKey (addOpt c.options o1) nm2 (some s) = false :=
    containsKey_addOpt_false _ _ _ _ habsent (by simp [ho1, hne])
  have e3 : addOpt (addOpt c.options o1) o2 = addOpt c.options o1 ++ [o2] := by
    rw [addOpt, if_neg (by simp [ho2, guard2])]
  have hfind2 : (addOpt (addOpt c.options o1) o2).find?
      (fun o => o.name == nm2 && o.sec == some s) = some o2 := by
    rw [e3]
    exact find?_append_last _ _ _ hfind1 (by simp [ho2])
  refine ⟨?_, ?_, ?_, ?_⟩
  · rw [e1q]; rfl
  · rw [e2q]; rfl
  · simp [getOption, e2q, hfind2, bindOpt, foundKey, ho2]
  · simp only [getItemStr, e2q]
    simp only [getOption, e2q, hfind2]
    simp [optionResolve, optValue, bindOpt, ho2, procOrId]

/-- An empty Config (no options, no readers, ambient section `None`),
allocated at heap index `0`. -/
def exC9heap : Heap := [{ sec := none, options := [], readers := [] }]

/-- Witness for C9 at a concrete empty Config: `add_option('a', section='S')`
rewrites the ambient section to `S`, and the later
`add_option('b', value=2)` is keyed under `S` and found by item access. -/
theorem c9_add_option_overwrites_ambient_section_witness :
    exC9heap[0]? = some { sec := none, options := [], readers := [] } ∧
    "a" ≠ "b" ∧
    containsKey [] "b" (some "S") = false ∧
    (((addOption exC9heap 0 "a" none none none (some "S") none)[0]?).map ConfigData.sec
        = some (some "S") ∧
    ((addOption (addOption exC9heap 0 "a" none none none (some "S") none) 0
        "b" none (some (.vInt 2)) none none none)[0]?).map ConfigData.sec = some (some "S") ∧
    foundKey (getOption 1 (addOption (addOption exC9heap 0 "a" none none none (some "S") none) 0
        "b" none (some (.vInt 2)) none none none) 0 "b" (some "S"))
      = some ("b", some "S", some (.vInt 2)) ∧
    getItemStr 1 (addOption (addOption exC9heap 0 "a" none none none (some "S") none) 0
        "b" none (some (.vInt 2)) none none none) [] 0 "b" = .ok (.vInt 2)) :=
  ⟨rfl, by decide, by decide,
   c9_add_option_overwrites_ambient_section exC9heap [] 0 _ "a" "b" "S" (.vInt 2)
     rfl (by decide) (by decide)⟩

/-- C10: `get_flat` returns the receiver's `_options` set by alias and
extends it in place (`options |= new_options`), so flattening a Config whose
upstream chain contains an intermediate Config permanently adds the
transitively reachable options to the intermediate Config's owned set as
well, not only to the receiver's.  For the chain `bottom (0) ← mid (1) ←
top (2)`, `getFlat` on `top` leaves `mid` owning `mid ∪ bottom` options, and
`flatten` on `top` additionally rewrites only `top`'s own fields. -/
theorem c10_get_flat_extends_intermediate_configs
    (s1 s2 s3 : Option String) (o1 o2 o3 : List Opt) :
    getFlat 3 [{ sec := s1, options := o1, readers := [] },
               { sec := s2, options := o2, readers := [.cfg 0] },
               { sec := s3, options := o3, readers := [.cfg 1] }] 2 =
      ([{ sec := s1, options := o1, readers := [] },
        { sec := s2, options := unionOpts o2 o1, readers := [.cfg 0] },
        { sec := s3, options := unionOpts o3 (unionOpts o2 o1), readers := [.cfg 1] }],
       unionOpts o3 (unionOpts o2 o1), []) ∧
    flatten 3 [{ sec := s1, options := o1, readers := [] },
               { sec := s2, options := o2, readers := [.cfg 0] },
               { sec := s3, options := o3, readers := [.cfg 1] }] 2 =
      [{ sec := s1, options := o1, readers := [] },
       { sec := s2, options := unionOpts o2 o1, readers := [.cfg 0] },
       { sec := s3, options := unionOpts o3 (unionOpts o2 o1), readers := [] }] :=
  ⟨rfl, rfl⟩
